import Mathlib

/-!
Verification of the Edge TTS Home Assistant integration
(`__init__.py`, `config_flow.py`, `const.py`, `tts.py`).

The Python code is shallowly embedded: byte strings become `List Nat`,
Python `str` becomes `String` (case-folding and splitting are modelled
on the underlying character lists with ASCII case-folding, which is what
the code relies on for locale tags such as "en-US"), Python dicts that
the code reads through `.get`/`in` become association lists
(`List (String × String)`), and the external effects (the `edge_tts`
library stream, the mp3→wav converter) become explicit inputs describing
their outcome.  Raising `HomeAssistantError` becomes returning
`Except.error`.
-/

namespace EdgeTts

/-! ## Python string primitives used by the integration -/

/-- ASCII lower-casing of one character, the behaviour of Python's
`str.lower` on the ASCII range (locale tags and language codes are ASCII). -/
def pyLowerChar (c : Char) : Char :=
  if h : 65 ≤ c.toNat ∧ c.toNat ≤ 90 then
    Char.ofNatAux (c.toNat + 32) (Or.inl (by omega))
  else c

/-- Python `str.lower`. -/
def pyLower (s : String) : String :=
  String.mk (s.data.map pyLowerChar)

/-- Python `str.startswith`. -/
def pyStartsWith (s p : String) : Bool :=
  p.data.isPrefixOf s.data

/-- Python `str.split(sep)` for a one-character separator, on the
character list: `"en-US-X"` ↦ `["en","US","X"]`, `""` ↦ `[""]`,
`"a--b"` ↦ `["a","","b"]`. -/
def splitOnChar (sep : Char) : List Char → List (List Char)
  | [] => [[]]
  | c :: cs =>
    if c = sep then [] :: splitOnChar sep cs
    else
      match splitOnChar sep cs with
      | [] => [[c]]
      | g :: gs => (c :: g) :: gs

/-- The text before the first `-` of a string (the primary subtag of a
locale); this is what `s.split("-")[0]` denotes. -/
def primarySubtag (s : String) : String :=
  String.mk (s.data.takeWhile (fun c => c != '-'))

/-- Code-point comparison of strings, the order Python's `sorted` uses. -/
def charListLe : List Char → List Char → Bool
  | [], _ => true
  | _ :: _, [] => false
  | a :: as, b :: bs =>
    if a.toNat < b.toNat then true
    else if b.toNat < a.toNat then false
    else charListLe as bs

/-- String comparison for `sorted`. -/
def pyStrLe (s t : String) : Bool :=
  charListLe s.data t.data

/-- Insert into a sorted list (helper for `sortBy`). -/
def insertLe {α : Type} (le : α → α → Bool) (a : α) : List α → List α
  | [] => [a]
  | b :: bs => if le a b then a :: b :: bs else b :: insertLe le a bs

/-- Insertion sort; models Python's `sorted` (the claims do not depend on
the sorting algorithm, only on the resulting order being produced once). -/
def sortBy {α : Type} (le : α → α → Bool) : List α → List α
  | [] => []
  | a :: as => insertLe le a (sortBy le as)

/-! ## `const.py` -/

def DEFAULT_VOICE : String := "en-US-EmmaMultilingualNeural"
def DEFAULT_RATE : String := "+0%"
def DEFAULT_VOLUME : String := "+0%"
def DEFAULT_PITCH : String := "+0Hz"
def DEFAULT_OUTPUT_FORMAT : String := "mp3"

/-! ## `tts.py`: ID3v2 stripping -/

/-- Function `_strip_id3v2` from `tts.py`: bytes are `Nat`s, `b"ID3"` is
`[73, 68, 51]`, and the synchsafe size is the exact fold
`size = (size << 7) | (b & 0x7F)` over `data[6:10]`. -/
def _strip_id3v2 (data : List Nat) : List Nat :=
  if data.length < 10 ∨ ¬ ([73, 68, 51].isPrefixOf data) then data
  else
    let size_bytes := (data.drop 6).take 4
    let size := size_bytes.foldl (fun s b => (s <<< 7) ||| (b &&& 127)) 0
    let total := 10 + size
    if total ≥ data.length then data
    else data.drop total

/-- Synchsafe decoding as the specification words it: each of the four
bytes contributes its low 7 bits, most-significant byte first. -/
def synchsafeSpec (b6 b7 b8 b9 : Nat) : Nat :=
  (b6 % 128) * 2 ^ 21 + (b7 % 128) * 2 ^ 14 + (b8 % 128) * 2 ^ 7 + b9 % 128

/-- The concrete ID3v2 example from the specification:
`b"ID3" + bytes([3,0,0,0,0,0,10]) + b"X"*10 + b"AUDIO"`. -/
def id3ExampleInput : List Nat :=
  [73, 68, 51, 3, 0, 0, 0, 0, 0, 10] ++ List.replicate 10 88 ++ [65, 85, 68, 73, 79]

/-- Bytes of `b"AUDIO"`. -/
def audioBytes : List Nat := [65, 85, 68, 73, 79]

/-! ## `tts.py`: voice catalog -/

/-- One dictionary of the catalog returned by `edge_tts.list_voices()`.
The code indexes `ShortName` directly (`voice["ShortName"]`) and reads the
other fields through `dict.get`, treating a missing key and a falsy value
alike; absent optional fields are therefore modelled as `""`. -/
structure VoiceEntry where
  ShortName : String
  Locale : String
  FriendlyName : String := ""
  Name : String := ""
deriving DecidableEq, Repr

/-- The per-entry test of `EdgeTTSEntity._voice_for_language`, applied to
the already lower-cased language:
`locale.startswith(language) or locale.split("-")[0] == language`
where `locale = voice.get("Locale", "").lower()`. -/
def voiceMatchesLanguage (language : String) (v : VoiceEntry) : Bool :=
  let locale := pyLower v.Locale
  pyStartsWith locale language ||
    String.mk ((splitOnChar '-' locale.data).headD []) == language

/-- Method `EdgeTTSEntity._voice_for_language` from `tts.py`: lower-case the
requested language, scan the catalog in order, return the `ShortName` of
the first match. -/
def _voice_for_language (voices : List VoiceEntry) (language : String) :
    Option String :=
  let language := pyLower language
  match voices.find? (voiceMatchesLanguage language) with
  | some v => some v.ShortName
  | none => none

/-- The per-entry test of `EdgeTTSEntity.async_get_supported_voices`,
applied to the already lower-cased language:
`voice.get("Locale", "").lower().startswith(language) or
 voice.get("Locale", "").split("-")[0].lower() == language`. -/
def supportedVoiceMatches (language : String) (v : VoiceEntry) : Bool :=
  pyStartsWith (pyLower v.Locale) language ||
    pyLower (String.mk ((splitOnChar '-' v.Locale.data).headD [])) == language

/-- The display-name projection of `async_get_supported_voices`:
`voice.get("FriendlyName") or voice.get("Name") or voice["ShortName"]`. -/
def displayName (v : VoiceEntry) : String :=
  if v.FriendlyName != "" then v.FriendlyName
  else if v.Name != "" then v.Name
  else v.ShortName

/-- A host-platform `Voice(voice_id, name)` value. -/
structure Voice where
  voice_id : String
  name : String
deriving DecidableEq, Repr

/-- Method `EdgeTTSEntity.async_get_supported_voices` from `tts.py`. -/
def async_get_supported_voices (voices : List VoiceEntry) (language : String) :
    Option (List Voice) :=
  if voices.isEmpty then none
  else
    let language := pyLower language
    some ((voices.filter (supportedVoiceMatches language)).map
      (fun v => ⟨v.ShortName, displayName v⟩))

/-! ## `tts.py`: locale derivation and entity initialization -/

/-- Function `_locale_from_voice` from `tts.py`. -/
def _locale_from_voice (voice : String) : String :=
  match splitOnChar '-' voice.data with
  | p0 :: p1 :: _ => String.mk (p0 ++ '-' :: p1)
  | _ => "en-US"

/-- A config entry as the integration reads it: the `data` and `options`
string mappings (dicts with string values, modelled as association
lists with the dict's distinct keys). -/
structure ConfigEntry where
  data : List (String × String)
  options : List (String × String)
deriving DecidableEq, Repr

/-- Method `EdgeTTSEntity._entry_value`: options first, then entry data, then
the built-in default. -/
def _entry_value (entry : ConfigEntry) (key default : String) : String :=
  match entry.options.lookup key with
  | some v => v
  | none =>
    match entry.data.lookup key with
    | some v => v
    | none => default

/-- The entity's configured default voice (`EdgeTTSEntity.__init__`). -/
def entityDefaultVoice (entry : ConfigEntry) : String :=
  _entry_value entry "voice" DEFAULT_VOICE

/-- The entity's default language (`EdgeTTSEntity.__init__`):
`_locale_from_voice(self._default_voice)`. -/
def entityDefaultLanguage (entry : ConfigEntry) : String :=
  _locale_from_voice (entityDefaultVoice entry)

/-- The expression `sorted({v.get("Locale") for v in voices if v.get("Locale")})` from
`EdgeTTSEntity.__init__`: distinct non-empty locales, sorted. -/
def sortedLocales (voices : List VoiceEntry) : List String :=
  sortBy pyStrLe (((voices.map VoiceEntry.Locale).filter (fun l => l ≠ "")).dedup)

/-- The supported-language list of `EdgeTTSEntity.__init__`: the sorted
locales, with the default locale appended when it is not already
present. -/
def entitySupportedLanguages (entry : ConfigEntry) (voices : List VoiceEntry) :
    List String :=
  let locales := sortedLocales voices
  let default_locale := entityDefaultLanguage entry
  if default_locale ∈ locales then locales else locales ++ [default_locale]

/-! ## `tts.py`: the synthesis pipeline of `async_get_tts_audio`

The streaming call and the external converter are effects; they are
modelled by their outcomes: the list of chunks the stream yielded before
completing, and a function giving the converter's result on any input.
`Except.error` models raising `HomeAssistantError`. -/

/-- One chunk yielded by `communicate.stream()`. -/
structure Chunk where
  type : String
  data : List Nat
deriving DecidableEq, Repr

/-- Outcome of `tts_component.async_convert_audio(hass, "mp3", _, "wav")`:
success with the converted bytes, `FileNotFoundError` (converter binary
absent), or any other exception. -/
inductive ConvResult where
  | ok (wav : List Nat)
  | fileNotFound
  | failure (msg : String)
deriving DecidableEq, Repr

/-- A raised `HomeAssistantError` with its message. -/
structure HomeAssistantError where
  message : String
deriving DecidableEq, Repr

/-- The chunk-accumulation loop of `async_get_tts_audio`:
`for chunk in stream: if chunk["type"] == "audio": audio_chunks.append(chunk["data"])`. -/
def collectAudioChunks (chunks : List Chunk) : List (List Nat) :=
  chunks.foldl (fun acc c => if c.type == "audio" then acc ++ [c.data] else acc) []

/-- The audio-handling part of `EdgeTTSEntity.async_get_tts_audio` after
the stream completed, for the resolved output format: raise on an empty
accumulator, join and tag-strip, optionally convert to wav with fallback
to mp3 on any conversion failure; the outer `except Exception` re-raises
everything as the generic user-facing error. -/
def tts_audio_result (chunks : List Chunk) (output_format : String)
    (convert : List Nat → ConvResult) :
    Except HomeAssistantError (String × List Nat) :=
  let audio_chunks := collectAudioChunks chunks
  let inner : Except HomeAssistantError (String × List Nat) :=
    if audio_chunks.isEmpty then
      .error ⟨"No audio received from Edge TTS"⟩
    else
      let audio_bytes := _strip_id3v2 audio_chunks.flatten
      if output_format == "wav" then
        match convert audio_bytes with
        | .ok wav => .ok ("wav", wav)
        | .fileNotFound => .ok ("mp3", audio_bytes)
        | .failure _ => .ok ("mp3", audio_bytes)
      else .ok ("mp3", audio_bytes)
  match inner with
  | .ok r => .ok r
  | .error _ => .error ⟨"Edge TTS request failed"⟩

/-! ## `tts.py`: voice catalog fetcher -/

/-- Function `_async_fetch_voices`: the outcome of `edge_tts.list_voices()` is the
input (`Except.error` standing for any raised exception); the fetcher
returns the fetched list, or `[]` after logging when the call raised. -/
def _async_fetch_voices (libResult : Except String (List VoiceEntry)) :
    List VoiceEntry :=
  match libResult with
  | .ok voices => voices
  | .error _ => []

/-! ## `config_flow.py` -/

/-- ASCII decimal digit (`\d` of the patterns). -/
def isAsciiDigit (c : Char) : Bool :=
  48 ≤ c.toNat && c.toNat ≤ 57

/-- Full match of `^[+-]?\d+<suffix>$`: an optional sign, one or more
digits, then exactly the given suffix. -/
def matchesSignedNumberWith (s : String) (suffixChars : List Char) : Bool :=
  let cs :=
    match s.data with
    | c :: rest => if c == '+' || c == '-' then rest else s.data
    | [] => []
  !(cs.takeWhile isAsciiDigit).isEmpty && cs.dropWhile isAsciiDigit == suffixChars

/-- Matcher for `RATE_RE = re.compile(r"^[+-]?\d+%$")`. -/
def RATE_RE_match (s : String) : Bool :=
  matchesSignedNumberWith s ['%']

/-- Matcher for `PITCH_RE = re.compile(r"^[+-]?\d+Hz$")`. -/
def PITCH_RE_match (s : String) : Bool :=
  matchesSignedNumberWith s ['H', 'z']

/-- Function `_validate_options` from `config_flow.py`: fill missing keys with the
defaults, skip falsy (empty) values, and collect the fixed error code for
each non-matching field. -/
def _validate_options (user_input : List (String × String)) :
    List (String × String) :=
  let rate := (user_input.lookup "rate").getD DEFAULT_RATE
  let volume := (user_input.lookup "volume").getD DEFAULT_VOLUME
  let pitch := (user_input.lookup "pitch").getD DEFAULT_PITCH
  (if rate != "" && !(RATE_RE_match rate) then [("rate", "invalid_rate")] else []) ++
  (if volume != "" && !(RATE_RE_match volume) then [("volume", "invalid_volume")] else []) ++
  (if pitch != "" && !(PITCH_RE_match pitch) then [("pitch", "invalid_pitch")] else [])

/-- A submission of the setup/options form.  The form schema marks all
five fields `vol.Required`, so the handlers always receive all of them. -/
structure FlowInput where
  voice : String
  rate : String
  volume : String
  pitch : String
  output_format : String
deriving DecidableEq, Repr

/-- The dictionary the host hands to the flow handler for a submission. -/
def FlowInput.toPairs (u : FlowInput) : List (String × String) :=
  [("voice", u.voice), ("rate", u.rate), ("volume", u.volume),
   ("pitch", u.pitch), ("output_format", u.output_format)]

/-- Result of one flow step: entry creation or a (re-)shown form. -/
inductive FlowResult where
  | createEntry (title : String) (data options : List (String × String))
  | showForm (errors : List (String × String))
deriving DecidableEq, Repr

/-- Method `EdgeTtsConfigFlow.async_step_user` from `config_flow.py`. -/
def async_step_user (user_input : Option FlowInput) : FlowResult :=
  match user_input with
  | some u =>
    let errors := _validate_options u.toPairs
    if errors.isEmpty then
      .createEntry ("Edge TTS (" ++ u.voice ++ ")") [] u.toPairs
    else .showForm errors
  | none => .showForm []

/-- The pre-populated defaults of the options-edit form
(`EdgeTtsOptionsFlow.async_step_init`'s schema):
`self.config_entry.options.get(key, DEFAULT)` for each field. -/
def optionsFormDefaults (options : List (String × String)) : FlowInput where
  voice := (options.lookup "voice").getD DEFAULT_VOICE
  rate := (options.lookup "rate").getD DEFAULT_RATE
  volume := (options.lookup "volume").getD DEFAULT_VOLUME
  pitch := (options.lookup "pitch").getD DEFAULT_PITCH
  output_format := (options.lookup "output_format").getD DEFAULT_OUTPUT_FORMAT

/-- Method `EdgeTtsOptionsFlow.async_step_init` from `config_flow.py`. -/
def async_step_init (user_input : Option FlowInput) : FlowResult :=
  match user_input with
  | some u =>
    let errors := _validate_options u.toPairs
    if errors.isEmpty then .createEntry "" u.toPairs []
    else .showForm errors
  | none => .showForm []

/-! ## `__init__.py`: options migration at entry load -/

/-- The migration step of `async_setup_entry` in `__init__.py`: when
`"output_format" in entry.options`, the entry's options are replaced by a
copy with that key popped (`some newOptions` models the
`async_update_entry` call); otherwise no update happens (`none`). -/
def migrateOptions (options : List (String × String)) :
    Option (List (String × String)) :=
  if options.any (fun p => p.1 == "output_format") then
    some (options.filter (fun p => p.1 != "output_format"))
  else none

/-! ## Helper lemmas -/

theorem and127_eq_mod (x : Nat) : x &&& 127 = x % 128 := by
  have h : (127 : Nat) = 2 ^ 7 - 1 := by norm_num
  rw [h, Nat.and_pow_two_sub_one_eq_mod]

theorem shiftOrStep (s x : Nat) : (s <<< 7) ||| (x &&& 127) = s * 128 + x % 128 := by
  have hlt : x % 128 < 2 ^ 7 := by
    have hm : x % 128 < 128 := Nat.mod_lt _ (by norm_num)
    simpa using hm
  have hor := (Nat.mul_add_lt_is_or hlt s).symm
  have hs : s <<< 7 = 2 ^ 7 * s := by rw [Nat.shiftLeft_eq]; ring
  rw [and127_eq_mod, hs, hor]
  ring

theorem synchsafe_foldl (x6 x7 x8 x9 : Nat) :
    [x6, x7, x8, x9].foldl (fun s b => (s <<< 7) ||| (b &&& 127)) 0 =
      synchsafeSpec x6 x7 x8 x9 := by
  simp only [List.foldl, shiftOrStep, synchsafeSpec]
  ring

/-! ## C1: ID3v2 stripping -/

/-- C1: `_strip_id3v2` leaves short buffers and buffers without the
`ID3` marker unchanged; on a marked buffer of at least 10 bytes it
decodes the synchsafe size from bytes 6..9, drops the first
`10 + size` bytes when that total is below the length, and leaves the
buffer unchanged otherwise; the specification's concrete example maps
to `b"AUDIO"`. -/
theorem c1_strip_id3v2_spec (b : List Nat) :
    (b.length < 10 → _strip_id3v2 b = b) ∧
    (b.take 3 ≠ [73, 68, 51] → _strip_id3v2 b = b) ∧
    (∀ x3 x4 x5 x6 x7 x8 x9 rest,
      b = 73 :: 68 :: 51 :: x3 :: x4 :: x5 :: x6 :: x7 :: x8 :: x9 :: rest →
      _strip_id3v2 b =
        if 10 + synchsafeSpec x6 x7 x8 x9 < b.length
        then b.drop (10 + synchsafeSpec x6 x7 x8 x9) else b) ∧
    _strip_id3v2 id3ExampleInput = audioBytes := by
  refine ⟨?_, ?_, ?_, by decide⟩
  · intro h
    unfold _strip_id3v2
    rw [if_pos (Or.inl h)]
  · intro h
    unfold _strip_id3v2
    rw [if_pos]
    refine Or.inr ?_
    intro hpre
    apply h
    have := List.isPrefixOf_iff_prefix.mp hpre
    rw [List.prefix_iff_eq_take] at this
    simpa using this.symm
  · intro x3 x4 x5 x6 x7 x8 x9 rest hb
    subst hb
    unfold _strip_id3v2
    rw [if_neg]
    · have hdrop :
        ((73 :: 68 :: 51 :: x3 :: x4 :: x5 :: x6 :: x7 :: x8 :: x9 :: rest).drop 6).take 4
          = [x6, x7, x8, x9] := rfl
      rw [hdrop]
      simp only [synchsafe_foldl]
      by_cases hlt :
          10 + synchsafeSpec x6 x7 x8 x9 <
            (73 :: 68 :: 51 :: x3 :: x4 :: x5 :: x6 :: x7 :: x8 :: x9 :: rest).length
      · rw [if_neg (by omega), if_pos hlt]
      · rw [if_pos (by omega), if_neg hlt]
    · push_neg
      constructor
      · simp only [List.length_cons]
        omega
      · simp [List.isPrefixOf]

/-- Witness for C1 at a concrete tagged buffer: synchsafe size 3,
total 20 is inside the 14-byte buffer, so 13 bytes are dropped. -/
theorem c1_strip_id3v2_witness :
    _strip_id3v2 [73, 68, 51, 3, 0, 0, 0, 0, 0, 3, 9, 9, 9, 5] = [5] := by
  have h :=
    (c1_strip_id3v2_spec [73, 68, 51, 3, 0, 0, 0, 0, 0, 3, 9, 9, 9, 5]).2.2.1
      3 0 0 0 0 0 3 [9, 9, 9, 5] rfl
  rw [h]
  decide

/-! ## C6: voice catalog fetcher -/

/-- C6: `_async_fetch_voices` never propagates a failure: it returns
`[]` whenever the library call raised, and exactly the library's list
when the call succeeded. -/
theorem c6_fetch_voices_spec (r : Except String (List VoiceEntry)) :
    (∀ e, r = .error e → _async_fetch_voices r = []) ∧
    (∀ vs, r = .ok vs → _async_fetch_voices r = vs) := by
  constructor <;> intro x hx <;> rw [hx] <;> rfl

/-- Witness for C6: a failing library call yields the empty catalog. -/
theorem c6_fetch_voices_witness :
    _async_fetch_voices (Except.error "network down") = [] :=
  (c6_fetch_voices_spec (Except.error "network down")).1 "network down" rfl

/-! ## C10: default language is always supported -/

/-- C10: for every config entry and catalog, the entity's default
language (derived from the configured default voice by
`_locale_from_voice`) is a member of its supported-language list, and
with the empty catalog that list is exactly the one-element list of the
default locale. -/
theorem c10_default_language_supported (entry : ConfigEntry)
    (voices : List VoiceEntry) :
    entityDefaultLanguage entry ∈ entitySupportedLanguages entry voices ∧
    (voices = [] →
      entitySupportedLanguages entry voices = [entityDefaultLanguage entry]) := by
  constructor
  · unfold entitySupportedLanguages
    by_cases h : entityDefaultLanguage entry ∈ sortedLocales voices
    · simp [h]
    · simp [h]
  · intro h
    subst h
    simp [entitySupportedLanguages, sortedLocales, sortBy]

/-- Witness for C10: an entry whose stored voice is `fr-FR-HenriNeural`
and an empty catalog give exactly `["fr-FR"]`. -/
theorem c10_default_language_supported_witness :
    entitySupportedLanguages ⟨[], [("voice", "fr-FR-HenriNeural")]⟩ [] = ["fr-FR"] := by
  have h :=
    (c10_default_language_supported ⟨[], [("voice", "fr-FR-HenriNeural")]⟩ []).2 rfl
  rw [h]
  rfl

/-! ## C8: options migration at entry load -/

theorem lookup_filterKeyNe_self (l : List (String × String)) (key : String) :
    (l.filter (fun p => p.1 != key)).lookup key = none := by
  induction l with
  | nil => rfl
  | cons p l ih =>
    obtain ⟨a, b⟩ := p
    by_cases hp : a = key
    · have h1 : (a != key) = false := by simp [hp]
      simp [List.filter_cons, h1, ih]
    · have h1 : (a != key) = true := by simp [hp]
      have h2 : (key == a) = false := by simp [Ne.symm hp]
      simp [List.filter_cons, List.lookup, h1, h2, ih]

theorem lookup_filterKeyNe_other (l : List (String × String)) (key k : String)
    (hk : k ≠ key) :
    (l.filter (fun p => p.1 != key)).lookup k = l.lookup k := by
  induction l with
  | nil => rfl
  | cons p l ih =>
    obtain ⟨a, b⟩ := p
    by_cases hp : a = key
    · have h1 : (a != key) = false := by simp [hp]
      have h2 : (k == a) = false := by
        subst hp
        simpa using hk
      simp [List.filter_cons, List.lookup, h1, h2, ih]
    · have h1 : (a != key) = true := by simp [hp]
      by_cases hkp : k = a
      · subst hkp
        simp [List.filter_cons, List.lookup, h1]
      · have h2 : (k == a) = false := by simp [hkp]
        simp [List.filter_cons, List.lookup, h1, h2, ih]

theorem any_key_eq_true_iff_lookup (l : List (String × String)) (key : String) :
    l.any (fun p => p.1 == key) = true ↔ l.lookup key ≠ none := by
  induction l with
  | nil => simp
  | cons p l ih =>
    obtain ⟨a, b⟩ := p
    by_cases hp : a = key
    · subst hp
      simp [List.lookup]
    · have h1 : (a == key) = false := by simp [hp]
      have h2 : (key == a) = false := by simp [Ne.symm hp]
      simp [List.lookup, h1, h2, ih]

/-- C8: at entry load, when `output_format` is present in the options the
entry is updated with exactly that key removed (all other keys keep
their values); when it is absent no options update happens. -/
theorem c8_migrate_options_spec (options : List (String × String)) :
    (options.lookup "output_format" = none → migrateOptions options = none) ∧
    (options.lookup "output_format" ≠ none →
      ∃ newOptions, migrateOptions options = some newOptions ∧
        newOptions.lookup "output_format" = none ∧
        ∀ k, k ≠ "output_format" → newOptions.lookup k = options.lookup k) := by
  constructor
  · intro h
    unfold migrateOptions
    rw [if_neg]
    intro hany
    exact (any_key_eq_true_iff_lookup options "output_format").mp hany h
  · intro h
    refine ⟨options.filter (fun p => p.1 != "output_format"), ?_, ?_, ?_⟩
    · unfold migrateOptions
      rw [if_pos ((any_key_eq_true_iff_lookup options "output_format").mpr h)]
    · exact lookup_filterKeyNe_self options "output_format"
    · intro k hk
      exact lookup_filterKeyNe_other options "output_format" k hk

/-- Witness for C8: an options mapping holding `voice` and
`output_format` is updated so that `output_format` is gone and `voice`
is untouched. -/
theorem c8_migrate_options_witness :
    ∃ newOptions,
      migrateOptions [("voice", "v"), ("output_format", "wav")] = some newOptions ∧
        newOptions.lookup "output_format" = none ∧
        ∀ k, k ≠ "output_format" →
          newOptions.lookup k =
            List.lookup k [("voice", "v"), ("output_format", "wav")] :=
  (c8_migrate_options_spec [("voice", "v"), ("output_format", "wav")]).2 (by decide)

/-! ## C2: options validator -/

/-- C2: with missing keys filled by the built-in defaults, the validator
reports no error for a matching rate/volume (`^[+-]?\d+%$`) or pitch
(`^[+-]?\d+Hz$`) value and none for an empty-string value; any other
value yields exactly the fixed error code under its own field key; the
result is empty exactly when all three fields pass.  (The function is
pure by construction: it only builds and returns the error mapping.) -/
theorem c2_validate_options_spec (u : List (String × String)) :
    (RATE_RE_match ((u.lookup "rate").getD DEFAULT_RATE) = true →
      (_validate_options u).lookup "rate" = none) ∧
    ((u.lookup "rate").getD DEFAULT_RATE = "" →
      (_validate_options u).lookup "rate" = none) ∧
    ((u.lookup "rate").getD DEFAULT_RATE ≠ "" →
      RATE_RE_match ((u.lookup "rate").getD DEFAULT_RATE) = false →
      (_validate_options u).lookup "rate" = some "invalid_rate") ∧
    (RATE_RE_match ((u.lookup "volume").getD DEFAULT_VOLUME) = true →
      (_validate_options u).lookup "volume" = none) ∧
    ((u.lookup "volume").getD DEFAULT_VOLUME = "" →
      (_validate_options u).lookup "volume" = none) ∧
    ((u.lookup "volume").getD DEFAULT_VOLUME ≠ "" →
      RATE_RE_match ((u.lookup "volume").getD DEFAULT_VOLUME) = false →
      (_validate_options u).lookup "volume" = some "invalid_volume") ∧
    (PITCH_RE_match ((u.lookup "pitch").getD DEFAULT_PITCH) = true →
      (_validate_options u).lookup "pitch" = none) ∧
    ((u.lookup "pitch").getD DEFAULT_PITCH = "" →
      (_validate_options u).lookup "pitch" = none) ∧
    ((u.lookup "pitch").getD DEFAULT_PITCH ≠ "" →
      PITCH_RE_match ((u.lookup "pitch").getD DEFAULT_PITCH) = false →
      (_validate_options u).lookup "pitch" = some "invalid_pitch") ∧
    (_validate_options u = [] ↔
      ((u.lookup "rate").getD DEFAULT_RATE = "" ∨
        RATE_RE_match ((u.lookup "rate").getD DEFAULT_RATE) = true) ∧
      ((u.lookup "volume").getD DEFAULT_VOLUME = "" ∨
        RATE_RE_match ((u.lookup "volume").getD DEFAULT_VOLUME) = true) ∧
      ((u.lookup "pitch").getD DEFAULT_PITCH = "" ∨
        PITCH_RE_match ((u.lookup "pitch").getD DEFAULT_PITCH) = true)) := by
  unfold _validate_options
  by_cases hre : (u.lookup "rate").getD DEFAULT_RATE = "" <;>
    by_cases hrm : RATE_RE_match ((u.lookup "rate").getD DEFAULT_RATE) = true <;>
    by_cases hve : (u.lookup "volume").getD DEFAULT_VOLUME = "" <;>
    by_cases hvm : RATE_RE_match ((u.lookup "volume").getD DEFAULT_VOLUME) = true <;>
    by_cases hpe : (u.lookup "pitch").getD DEFAULT_PITCH = "" <;>
    by_cases hpm : PITCH_RE_match ((u.lookup "pitch").getD DEFAULT_PITCH) = true <;>
    simp_all [List.lookup]

/-- Witness for C2: a mapping with an empty rate, a malformed volume, a
well-formed pitch, and the default rate filled in for the missing key. -/
theorem c2_validate_options_witness :
    (_validate_options [("rate", ""), ("volume", "loud"), ("pitch", "-2Hz")]).lookup "volume"
      = some "invalid_volume" := by
  have h :=
    (c2_validate_options_spec [("rate", ""), ("volume", "loud"), ("pitch", "-2Hz")]).2.2.2.2.2.1
  exact h (by decide) (by decide)

/-! ## C3 and C7: voice selection over the catalog -/

/-- The matching predicate exactly as the claims word it: the entry's
locale starts with the requested language or the locale's primary
subtag (text before the first `-`) equals it, both compared
case-insensitively. -/
def claimMatches (language : String) (v : VoiceEntry) : Bool :=
  pyStartsWith (pyLower v.Locale) (pyLower language) ||
    pyLower (primarySubtag v.Locale) == pyLower language

/-- The two-entry catalog of the claims' concrete example. -/
def exampleCatalog : List VoiceEntry :=
  [{ ShortName := "en-US-Emma", Locale := "en-US" },
   { ShortName := "fr-FR-Henri", Locale := "fr-FR" }]

theorem pyLowerChar_eq_dash_iff (c : Char) : pyLowerChar c = '-' ↔ c = '-' := by
  unfold pyLowerChar
  split
  · rename_i h
    constructor
    · intro hEq
      have h45 : c.toNat + 32 = ('-' : Char).toNat := congrArg Char.toNat hEq
      have hd : ('-' : Char).toNat = 45 := rfl
      omega
    · intro hEq
      rw [hEq] at h
      have hd : ('-' : Char).toNat = 45 := rfl
      omega
  · exact Iff.rfl

theorem takeWhile_dash_map_pyLowerChar (cs : List Char) :
    (cs.map pyLowerChar).takeWhile (fun c => c != '-') =
      (cs.takeWhile (fun c => c != '-')).map pyLowerChar := by
  rw [List.takeWhile_map]
  have hfun : ((fun c => c != '-') ∘ pyLowerChar) = (fun c : Char => c != '-') := by
    funext c
    by_cases hc : c = '-'
    · subst hc
      have h1 : pyLowerChar '-' = '-' := by decide
      simp [Function.comp, h1]
    · have h1 : ¬ pyLowerChar c = '-' := fun hEq => hc ((pyLowerChar_eq_dash_iff c).mp hEq)
      have e1 : (pyLowerChar c != '-') = true := by simp [h1]
      have e2 : (c != '-') = true := by simp [hc]
      simp [Function.comp, e1, e2]
  rw [hfun]

theorem splitOnChar_ne_nil (sep : Char) (cs : List Char) : splitOnChar sep cs ≠ [] := by
  induction cs with
  | nil => simp [splitOnChar]
  | cons c cs ih =>
    by_cases hc : c = sep
    · simp [splitOnChar, hc]
    · cases h : splitOnChar sep cs with
      | nil => exact absurd h ih
      | cons g gs => simp [splitOnChar, hc, h]

theorem splitOnChar_headD (sep : Char) (cs : List Char) :
    (splitOnChar sep cs).headD [] = cs.takeWhile (fun c => c != sep) := by
  induction cs with
  | nil => simp [splitOnChar]
  | cons c cs ih =>
    by_cases hc : c = sep
    · subst hc
      simp [splitOnChar, List.takeWhile_cons]
    · cases h : splitOnChar sep cs with
      | nil => exact absurd h (splitOnChar_ne_nil sep cs)
      | cons g gs =>
        have hb : (c != sep) = true := by simp [hc]
        rw [h] at ih
        simp only [splitOnChar, if_neg hc, h, List.headD_cons, List.takeWhile_cons, hb,
          if_true] at ih ⊢
        rw [← ih]

/-- The first subtag of the lower-cased locale is the lower-cased first
subtag of the locale: `locale.lower().split("-")[0]` and
`locale.split("-")[0].lower()` agree. -/
theorem headD_split_pyLower (s : String) :
    String.mk ((splitOnChar '-' (pyLower s).data).headD []) =
      pyLower (primarySubtag s) := by
  show String.mk ((splitOnChar '-' (s.data.map pyLowerChar)).headD []) = _
  rw [splitOnChar_headD, takeWhile_dash_map_pyLowerChar]
  rfl

theorem voiceMatchesLanguage_eq_claimMatches (L : String) (v : VoiceEntry) :
    voiceMatchesLanguage (pyLower L) v = claimMatches L v := by
  simp only [voiceMatchesLanguage, claimMatches]
  rw [headD_split_pyLower]

theorem supportedVoiceMatches_eq_claimMatches (L : String) (v : VoiceEntry) :
    supportedVoiceMatches (pyLower L) v = claimMatches L v := by
  unfold supportedVoiceMatches claimMatches
  rw [splitOnChar_headD]
  rfl

/-- C3: `_voice_for_language` scans the catalog in its original order
and returns the `ShortName` of the first entry whose locale starts with
the requested language or whose primary subtag equals it (compared
case-insensitively); it returns nothing when no entry matches (hence
always for the empty catalog); on the example catalog, `"en"` resolves
to `"en-US-Emma"` and `"de"` to nothing. -/
theorem c3_voice_for_language_spec (voices : List VoiceEntry) (L : String) :
    (∀ s, _voice_for_language voices L = some s ↔
      ∃ pre v post, voices = pre ++ v :: post ∧
        claimMatches L v = true ∧ v.ShortName = s ∧
        ∀ w ∈ pre, claimMatches L w = false) ∧
    (_voice_for_language voices L = none ↔
      ∀ v ∈ voices, claimMatches L v = false) ∧
    _voice_for_language exampleCatalog "en" = some "en-US-Emma" ∧
    _voice_for_language exampleCatalog "de" = none := by
  have hpred : voiceMatchesLanguage (pyLower L) = claimMatches L :=
    funext (voiceMatchesLanguage_eq_claimMatches L)
  have hunf : _voice_for_language voices L =
      match voices.find? (claimMatches L) with
      | some v => some v.ShortName
      | none => none := by
    simp only [_voice_for_language]
    rw [hpred]
  refine ⟨?_, ?_, by decide, by decide⟩
  · intro s
    rw [hunf]
    cases hf : voices.find? (claimMatches L) with
    | none =>
      simp only [Option.some.injEq]
      constructor
      · intro h
        exact absurd h (by simp)
      · rintro ⟨pre, v, post, hcat, hm, hs, hpre⟩
        have hnone := List.find?_eq_none.mp hf v (by rw [hcat]; simp)
        rw [hm] at hnone
        exact absurd rfl hnone
    | some v0 =>
      simp only [Option.some.injEq]
      constructor
      · intro hs0
        obtain ⟨hp0, pre, post, hcat, hpre⟩ := List.find?_eq_some.mp hf
        exact ⟨pre, v0, post, hcat, hp0, hs0, fun w hw => by
          have := hpre w hw
          simpa using this⟩
      · rintro ⟨pre, v, post, hcat, hm, hs, hpre⟩
        have hfv : voices.find? (claimMatches L) = some v :=
          List.find?_eq_some.mpr ⟨hm, pre, post, hcat, fun w hw => by
            simp [hpre w hw]⟩
        rw [hf] at hfv
        injection hfv with hv
        rw [← hv] at hs
        exact hs
  · rw [hunf]
    cases hf : voices.find? (claimMatches L) with
    | none =>
      constructor
      · intro _ v hv
        have hv2 := List.find?_eq_none.mp hf v hv
        simpa using hv2
      · intro _
        rfl
    | some v0 =>
      have hmem := List.mem_of_find?_eq_some hf
      have hp0 := List.find?_some hf
      constructor
      · intro h
        exact absurd h (by simp)
      · intro hall
        rw [hall v0 hmem] at hp0
        exact absurd hp0 (by simp)

/-- Witness for C3: resolving `"fr"` against the example catalog picks
the second entry, the first (and only) match. -/
theorem c3_voice_for_language_witness :
    _voice_for_language exampleCatalog "fr" = some "fr-FR-Henri" := by
  refine ((c3_voice_for_language_spec exampleCatalog "fr").1 "fr-FR-Henri").mpr ?_
  exact ⟨[{ ShortName := "en-US-Emma", Locale := "en-US" }],
    { ShortName := "fr-FR-Henri", Locale := "fr-FR" }, [],
    by decide, by decide, rfl, by decide⟩

/-- C7: the supported-voice listing returns nothing exactly when the
cached catalog is empty; on a non-empty catalog it returns all entries
matching the resolution predicate, in catalog order, projected to
`(ShortName, FriendlyName | Name | ShortName)` pairs; and its per-entry
predicate coincides with `_voice_for_language`'s. -/
theorem c7_supported_voices_spec (voices : List VoiceEntry) (L : String) :
    (async_get_supported_voices voices L = none ↔ voices = []) ∧
    (voices ≠ [] →
      async_get_supported_voices voices L =
        some ((voices.filter (claimMatches L)).map
          (fun v => ⟨v.ShortName, displayName v⟩))) ∧
    (∀ v, supportedVoiceMatches (pyLower L) v = voiceMatchesLanguage (pyLower L) v) := by
  have hfilter : voices.filter (supportedVoiceMatches (pyLower L)) =
      voices.filter (claimMatches L) := by
    have hfun : supportedVoiceMatches (pyLower L) = claimMatches L :=
      funext (supportedVoiceMatches_eq_claimMatches L)
    rw [hfun]
  refine ⟨?_, ?_, ?_⟩
  · simp only [async_get_supported_voices]
    cases voices with
    | nil => simp
    | cons v vs => simp
  · intro hne
    simp only [async_get_supported_voices]
    rw [if_neg (by simp [List.isEmpty_iff, hne]), hfilter]
  · intro v
    rw [supportedVoiceMatches_eq_claimMatches, voiceMatchesLanguage_eq_claimMatches]

/-- Witness for C7: on the example catalog, language `"en"` lists
exactly the single matching entry, displayed by its short name since
the optional name fields are absent. -/
theorem c7_supported_voices_witness :
    async_get_supported_voices exampleCatalog "en" =
      some [{ voice_id := "en-US-Emma", name := "en-US-Emma" }] := by
  have h := (c7_supported_voices_spec exampleCatalog "en").2.1 (by decide)
  rw [h]
  decide

/-! ## C4 and C5: the synthesis pipeline -/

theorem collectAudioChunks_append (chunks : List Chunk) (acc : List (List Nat)) :
    chunks.foldl (fun acc c => if c.type == "audio" then acc ++ [c.data] else acc) acc =
      acc ++ (chunks.filter (fun c => c.type == "audio")).map Chunk.data := by
  induction chunks generalizing acc with
  | nil => simp
  | cons c cs ih =>
    rw [List.foldl_cons, ih, List.filter_cons]
    by_cases hc : c.type = "audio"
    · simp [hc]
    · simp [hc]

/-- C4: the audio accumulator holds exactly the payloads of the
audio-typed chunks, in stream order (non-audio chunks are never
appended); and when the completed stream yielded no audio-typed chunk,
the request fails with the generic user-facing `HomeAssistantError`
(the inner "no audio" error is re-raised by the top-level handler) —
there is no retry, the error is the call's final outcome. -/
theorem c4_no_audio_spec (chunks : List Chunk) (fmt : String)
    (convert : List Nat → ConvResult) :
    collectAudioChunks chunks =
      (chunks.filter (fun c => c.type == "audio")).map Chunk.data ∧
    ((∀ c ∈ chunks, c.type ≠ "audio") →
      tts_audio_result chunks fmt convert =
        .error ⟨"Edge TTS request failed"⟩) := by
  have hcoll : collectAudioChunks chunks =
      (chunks.filter (fun c => c.type == "audio")).map Chunk.data := by
    have h := collectAudioChunks_append chunks []
    simpa [collectAudioChunks] using h
  refine ⟨hcoll, ?_⟩
  intro hall
  have hfil : chunks.filter (fun c => c.type == "audio") = [] := by
    rw [List.filter_eq_nil_iff]
    intro c hc
    simp [hall c hc]
  have hempty : collectAudioChunks chunks = [] := by rw [hcoll, hfil]; rfl
  simp only [tts_audio_result, hempty]
  rfl

/-- Witness for C4: a stream yielding only a word-boundary chunk makes
the request fail with the generic error. -/
theorem c4_no_audio_witness :
    tts_audio_result [{ type := "WordBoundary", data := [0, 1] }] "mp3"
        (fun _ => ConvResult.fileNotFound) =
      .error ⟨"Edge TTS request failed"⟩ :=
  (c4_no_audio_spec [{ type := "WordBoundary", data := [0, 1] }] "mp3"
    (fun _ => ConvResult.fileNotFound)).2 (by decide)

/-- C5: when the resolved output format is `wav` and some audio was
received, a successful conversion yields `("wav", converted)`, while a
missing converter (`FileNotFoundError`) or any other conversion failure
falls back to `("mp3", tag-stripped bytes)` instead of failing. -/
theorem c5_wav_fallback_spec (chunks : List Chunk)
    (convert : List Nat → ConvResult)
    (h : collectAudioChunks chunks ≠ []) :
    (∀ w, convert (_strip_id3v2 (collectAudioChunks chunks).flatten) = .ok w →
      tts_audio_result chunks "wav" convert = .ok ("wav", w)) ∧
    (convert (_strip_id3v2 (collectAudioChunks chunks).flatten) = .fileNotFound →
      tts_audio_result chunks "wav" convert =
        .ok ("mp3", _strip_id3v2 (collectAudioChunks chunks).flatten)) ∧
    (∀ msg, convert (_strip_id3v2 (collectAudioChunks chunks).flatten) = .failure msg →
      tts_audio_result chunks "wav" convert =
        .ok ("mp3", _strip_id3v2 (collectAudioChunks chunks).flatten)) := by
  have hne : (collectAudioChunks chunks).isEmpty = false := by
    simp [List.isEmpty_iff, h]
  refine ⟨?_, ?_, ?_⟩
  · intro w hw
    simp [tts_audio_result, hne, hw]
  · intro hw
    simp [tts_audio_result, hne, hw]
  · intro msg hw
    simp [tts_audio_result, hne, hw]

/-- Witness for C5: one audio chunk and an absent converter give back
the mp3 bytes instead of an error. -/
theorem c5_wav_fallback_witness :
    tts_audio_result [{ type := "audio", data := [1, 2] }] "wav"
        (fun _ => ConvResult.fileNotFound) =
      .ok ("mp3", [1, 2]) := by
  have h :=
    (c5_wav_fallback_spec [{ type := "audio", data := [1, 2] }]
      (fun _ => ConvResult.fileNotFound) (by decide)).2.1 rfl
  rw [h]
  rfl

/-! ## C9: setup/options round trip -/

/-- C9: a five-field submission that passes validation is turned by the
setup step into an entry with empty data, the submission itself as its
options, and a title derived from the voice; and the options-edit form
pre-populated from those stored options presents exactly the submitted
values for every field. -/
theorem c9_round_trip_spec (u : FlowInput)
    (hvalid : _validate_options u.toPairs = [])
    (hfmt : u.output_format = "mp3" ∨ u.output_format = "wav") :
    async_step_user (some u) =
      .createEntry ("Edge TTS (" ++ u.voice ++ ")") [] u.toPairs ∧
    optionsFormDefaults u.toPairs = u := by
  constructor
  · simp [async_step_user, hvalid]
  · cases u
    rfl

/-- Witness for C9: the built-in defaults submitted through the setup
form round-trip unchanged through the options form. -/
theorem c9_round_trip_witness :
    async_step_user
        (some ⟨"en-US-EmmaMultilingualNeural", "+0%", "+0%", "+0Hz", "mp3"⟩) =
      .createEntry ("Edge TTS (" ++ "en-US-EmmaMultilingualNeural" ++ ")") []
        (FlowInput.toPairs ⟨"en-US-EmmaMultilingualNeural", "+0%", "+0%", "+0Hz", "mp3"⟩) ∧
    optionsFormDefaults
        (FlowInput.toPairs ⟨"en-US-EmmaMultilingualNeural", "+0%", "+0%", "+0Hz", "mp3"⟩) =
      ⟨"en-US-EmmaMultilingualNeural", "+0%", "+0%", "+0Hz", "mp3"⟩ :=
  c9_round_trip_spec ⟨"en-US-EmmaMultilingualNeural", "+0%", "+0%", "+0Hz", "mp3"⟩
    (by decide) (Or.inl rfl)

end EdgeTts
